import Mathlib

/-!
Shallow embedding of the `wezterm-watch` core (git status provider, status
cache, event translator and correlator loop) from
`src/wezterm-watch/src/{git.rs, watcher.rs, main.rs}`.

Paths are modelled as lists of components (`GitPath`); instants and
durations are integer milliseconds; the `git2` library objects
(`Repository`, references, status entries) are modelled as records whose
fields are the results of the library calls the code performs.
-/

/-- Path model: a path is its list of components (`PathBuf` in the source). -/
abbrev GitPath := List String

/-- `FileStatus` enum from git.rs lines 8-18. -/
inductive FileStatus where
  | Modified
  | Added
  | Deleted
  | Renamed
  | Untracked
  | Conflicted
  | Staged
  | Unknown
deriving DecidableEq, Repr

/-- The `git2::Status` bit-flags consulted by `fetch_status`, one Bool per
flag queried in git.rs lines 156-174. -/
structure GitStatusFlags where
  conflicted : Bool
  index_new : Bool
  index_modified : Bool
  index_deleted : Bool
  index_renamed : Bool
  wt_new : Bool
  wt_modified : Bool
  wt_deleted : Bool
  wt_renamed : Bool
deriving DecidableEq, Repr

/-- The per-entry classification cascade of `fetch_status`
(git.rs lines 156-174), as executed by the source. -/
def classifyStatus (s : GitStatusFlags) : FileStatus :=
  if s.conflicted then FileStatus.Conflicted
  else if s.index_new || s.index_modified || s.index_deleted then FileStatus.Staged
  else if s.wt_new then FileStatus.Untracked
  else if s.wt_modified then FileStatus.Modified
  else if s.wt_deleted then FileStatus.Deleted
  else if s.wt_renamed || s.index_renamed then FileStatus.Renamed
  else FileStatus.Unknown

/-- Spec-side classification, written from the spec sentence "classified by
strict precedence: conflicted > staged (index new/modified/deleted) >
untracked (working-tree new) > working-tree modified > working-tree
deleted > renamed > unknown" (spec §4.4); to be compared with
`classifyStatus`, which is translated from the source. -/
def specClassifyStatus (s : GitStatusFlags) : FileStatus :=
  if s.conflicted then FileStatus.Conflicted
  else if s.index_new ∨ s.index_modified ∨ s.index_deleted then FileStatus.Staged
  else if s.wt_new then FileStatus.Untracked
  else if s.wt_modified then FileStatus.Modified
  else if s.wt_deleted then FileStatus.Deleted
  else if s.wt_renamed ∨ s.index_renamed then FileStatus.Renamed
  else FileStatus.Unknown

/-- `GitInfo` from git.rs lines 49-56; `file_statuses` is the `HashMap`
modelled as an association list where the most recent insert is at the
head (see `buildFileStatuses`). -/
structure GitInfo where
  branch : String
  ahead : Nat
  behind : Nat
  has_conflicts : Bool
  file_statuses : List (GitPath × FileStatus)
deriving DecidableEq, Repr

/-- One entry of `repo.statuses(...)`: `entry.path()` (an `Option`,
`unwrap_or("")` in the source) and its status flags. -/
structure StatusEntry where
  path : Option GitPath
  status : GitStatusFlags
deriving DecidableEq, Repr

/-- A `git2` reference as consulted by the source: `is_branch()`,
`shorthand()` and `target()`. Object ids are modelled as `Nat`. -/
structure GitReference where
  is_branch : Bool
  shorthand : Option String
  target : Option Nat
deriving DecidableEq, Repr

/-- The `git2::Repository` operations invoked by `fetch_status` and
`get_ahead_behind`, modelled as the results the library would return:
`head()`, `find_reference(name)`, `statuses(opts)` and
`graph_ahead_behind(local, upstream)`. -/
structure GitRepository where
  head : Except String GitReference
  find_reference : String → Except String GitReference
  statuses : Except String (List StatusEntry)
  graph_ahead_behind : Nat → Nat → Except String (Nat × Nat)

/-- The status-entry loop of `fetch_status` (git.rs lines 149-177): fold
over the entries, inserting each classified path into the map (newest
insert at the head, so lookup by first match gives `HashMap` overwrite
semantics) and latching `has_conflicts` in the conflicted branch. -/
def buildFileStatuses (entries : List StatusEntry) :
    List (GitPath × FileStatus) × Bool :=
  entries.foldl
    (fun acc e =>
      ((e.path.getD [], classifyStatus e.status) :: acc.1,
       acc.2 || e.status.conflicted))
    ([], false)

/-- `GitMonitor::get_ahead_behind` (git.rs lines 188-209). -/
def get_ahead_behind (repo : GitRepository) : Except String (Nat × Nat) :=
  match repo.head with
  | Except.error e => Except.error e
  | Except.ok head =>
    if !head.is_branch then Except.ok (0, 0)
    else
      match head.target with
      | none => Except.error "Failed to get HEAD target"
      | some local_oid =>
        match head.shorthand with
        | none => Except.error "Failed to get branch name"
        | some branch =>
          match repo.find_reference ("refs/remotes/origin/" ++ branch) with
          | Except.error _ => Except.ok (0, 0)
          | Except.ok upstream =>
            match upstream.target with
            | none => Except.error "Failed to get upstream target"
            | some upstream_oid => repo.graph_ahead_behind local_oid upstream_oid

/-- `GitMonitor::fetch_status` (git.rs lines 126-186). The monitor's
`repo: Option<Repository>` field is the argument. -/
def fetch_status (repo : Option GitRepository) : Except String GitInfo :=
  match repo with
  | none => Except.error "No git repository"
  | some repo =>
    match repo.head with
    | Except.error _ => Except.error "Failed to get HEAD"
    | Except.ok head =>
      let branch :=
        if head.is_branch then head.shorthand.getD "unknown" else "detached"
      match get_ahead_behind repo with
      | Except.error e => Except.error e
      | Except.ok (ahead, behind) =>
        match repo.statuses with
        | Except.error _ => Except.error "Failed to get git status"
        | Except.ok entries =>
          let built := buildFileStatuses entries
          Except.ok
            { branch := branch
              ahead := ahead
              behind := behind
              has_conflicts := built.2
              file_statuses := built.1 }

/-! ## Status cache (git.rs lines 58-124, 211-229) -/

/-- `CachedGitInfo` (git.rs lines 64-68). `Instant`s and `Duration`s are
integer milliseconds; `last_update` may lie before the model's time origin
(the constructor subtracts 10 s), hence `Int`. -/
structure CachedGitInfo where
  info : Option GitInfo
  last_update : Int
  cache_duration : Int
deriving DecidableEq, Repr

/-- The cache as initialised by `GitMonitor::new` (git.rs lines 77-81):
no snapshot, `last_update = now - 10 s`, ttl 500 ms. -/
def cache_new (now : Int) : CachedGitInfo :=
  { info := none, last_update := now - 10000, cache_duration := 500 }

/-- `GitMonitor::get_status` (git.rs lines 103-119) over an explicit cache
state. `fetch` is the (deterministic) result `fetch_status` would return
for this monitor's repository. Returns the result, the cache state after
the call, and how many times `fetch_status` was invoked (0 or 1). -/
def get_status (fetch : Except String GitInfo) (now : Int)
    (c : CachedGitInfo) : Except String GitInfo × CachedGitInfo × Nat :=
  match c.info with
  | some info =>
    if now - c.last_update < c.cache_duration then (Except.ok info, c, 0)
    else
      match fetch with
      | Except.error e => (Except.error e, c, 1)
      | Except.ok new_info =>
        (Except.ok new_info,
         { c with info := some new_info, last_update := now }, 1)
  | none =>
    match fetch with
    | Except.error e => (Except.error e, c, 1)
    | Except.ok new_info =>
      (Except.ok new_info,
       { c with info := some new_info, last_update := now }, 1)

/-- `GitMonitor::invalidate_cache` (git.rs lines 121-124):
`last_update := now - 10 s`. -/
def invalidate_cache (now : Int) (c : CachedGitInfo) : CachedGitInfo :=
  { c with last_update := now - 10000 }

/-- First-match association-list lookup: `HashMap::get` on the map built
by `buildFileStatuses` (newest insert first). -/
def lookup_status (m : List (GitPath × FileStatus)) (p : GitPath) :
    Option FileStatus :=
  match m with
  | [] => none
  | (k, v) :: rest => if k = p then some v else lookup_status rest p

/-- `Path::strip_prefix` on component lists: removes `base` from the front
of `p`, failing when `base` is not a prefix. -/
def stripPrefixList (base p : GitPath) : Option GitPath :=
  match base, p with
  | [], p => some p
  | _ :: _, [] => none
  | b :: bs, x :: xs => if b = x then stripPrefixList bs xs else none

/-- The lookup logic of `GitMonitor::get_file_status` (git.rs lines
214-228) applied to one snapshot: exact key match first, then the path
with the repository root stripped. -/
def resolve_file_status (repo_root : Option GitPath) (info : GitInfo)
    (path : GitPath) : Option FileStatus :=
  match lookup_status info.file_statuses path with
  | some s => some s
  | none =>
    match repo_root with
    | some root =>
      match stripPrefixList root path with
      | some rel => lookup_status info.file_statuses rel
      | none => none
    | none => none

/-- The mutable state of a `GitMonitor` together with the (fixed) result
its repository yields for `fetch_status`. -/
structure MonitorState where
  repo_root : Option GitPath
  fetch : Except String GitInfo
  cache : CachedGitInfo

/-- `GitMonitor::get_file_status` (git.rs lines 211-229): `get_status()?`
then `resolve_file_status` on the returned snapshot. Also returns the
cache state after the call. -/
def get_file_status (m : MonitorState) (now : Int) (p : GitPath) :
    Except String (Option FileStatus) × CachedGitInfo :=
  match get_status m.fetch now m.cache with
  | (Except.error e, c, _) => (Except.error e, c)
  | (Except.ok info, c, _) =>
    (Except.ok (resolve_file_status m.repo_root info p), c)

/-! ## Event translation (watcher.rs lines 9-38, 106-153) -/

/-- `WatchEvent` (watcher.rs lines 9-17). -/
inductive WatchEvent where
  | Created (path : GitPath)
  | Modified (path : GitPath)
  | Deleted (path : GitPath)
  | Renamed (from_path to_path : GitPath)
  | Error (message : String)
deriving DecidableEq, Repr

/-- `WatchEvent::path` (watcher.rs lines 20-26). -/
def WatchEvent.path : WatchEvent → Option GitPath
  | WatchEvent.Created p => some p
  | WatchEvent.Modified p => some p
  | WatchEvent.Deleted p => some p
  | WatchEvent.Renamed _ to_path => some to_path
  | WatchEvent.Error _ => none

/-- The `notify::EventKind` variants distinguished by `convert_event`
(watcher.rs lines 146-152); `Other` stands for every kind that falls into
the catch-all arm. -/
inductive RawEventKind where
  | Create
  | Modify
  | Remove
  | Any
  | Other
deriving DecidableEq, Repr

/-- A debounced raw `notify::Event`: its kind and its path list. -/
structure RawEvent where
  kind : RawEventKind
  paths : List GitPath
deriving DecidableEq, Repr

/-- An ignore matcher: `gi.matched(rel_path, is_dir).is_ignore()` as a
predicate of the relative path and the `is_dir` answer. -/
abbrev IgnoreMatcher := GitPath → Bool → Bool

/-- The per-path test of the filter loop in `convert_event` (watcher.rs
lines 137-143): a path triggers the drop when it strips against the base
path and the matcher reports ignore (`is_dir` answered by the filesystem
oracle `isDir`). -/
def path_ignored (gi : IgnoreMatcher) (isDir : GitPath → Bool)
    (base_path : GitPath) (p : GitPath) : Bool :=
  match stripPrefixList base_path p with
  | some rel => gi rel (isDir p)
  | none => false

/-- The ignore-filter early return of `convert_event` (watcher.rs lines
135-144): with a matcher present the event is dropped as soon as one
referenced path is ignored; with no matcher nothing is dropped. -/
def event_dropped (gitignore : Option IgnoreMatcher)
    (isDir : GitPath → Bool) (base_path : GitPath) (event : RawEvent) :
    Bool :=
  match gitignore with
  | some gi => event.paths.any (fun p => path_ignored gi isDir base_path p)
  | none => false

/-- `FileWatcher::convert_event` (watcher.rs lines 130-153). -/
def convert_event (gitignore : Option IgnoreMatcher)
    (isDir : GitPath → Bool) (base_path : GitPath) (event : RawEvent) :
    Option WatchEvent :=
  if event_dropped gitignore isDir base_path event then none
  else
    match event.kind with
    | RawEventKind.Create => event.paths.head?.map WatchEvent.Created
    | RawEventKind.Modify => event.paths.head?.map WatchEvent.Modified
    | RawEventKind.Remove => event.paths.head?.map WatchEvent.Deleted
    | RawEventKind.Any => event.paths.head?.map WatchEvent.Modified
    | RawEventKind.Other => none

/-! ## Correlator loop body (main.rs lines 137-157) -/

/-- The `Ok(event)` arm of the main loop (main.rs lines 139-157): when git
is enabled and the event carries a path, invalidate the cache, then
resolve the path's status (`get_file_status(path).ok().flatten()`).
Returns the status handed to the output collaborator, the monitor state
after the iteration, and whether `invalidate_cache` was called. -/
def process_event (monitor : Option MonitorState) (now : Int)
    (event : WatchEvent) :
    Option FileStatus × Option MonitorState × Bool :=
  match monitor with
  | none => (none, none, false)
  | some m =>
    match WatchEvent.path event with
    | none => (none, some m, false)
    | some p =>
      let m1 : MonitorState := { m with cache := invalidate_cache now m.cache }
      match get_file_status m1 now p with
      | (Except.error _, c) => (none, some { m1 with cache := c }, true)
      | (Except.ok s, c) => (s, some { m1 with cache := c }, true)

/-! ## Helper lemmas -/

/-- The source's classification cascade and the spec's precedence wording
agree on every combination of status flags. -/
theorem classifyStatus_eq_specClassifyStatus (s : GitStatusFlags) :
    classifyStatus s = specClassifyStatus s := by
  obtain ⟨c, inw, imo, ide, irn, wn, wm, wd, wr⟩ := s
  cases c <;> cases inw <;> cases imo <;> cases ide <;> cases irn <;>
    cases wn <;> cases wm <;> cases wd <;> cases wr <;> rfl

/-- An entry is classified `Conflicted` exactly when its `conflicted` flag
is set (the cascade's first branch, and no later branch yields
`Conflicted`). -/
theorem classifyStatus_conflicted_iff (s : GitStatusFlags) :
    classifyStatus s = FileStatus.Conflicted ↔ s.conflicted = true := by
  obtain ⟨c, inw, imo, ide, irn, wn, wm, wd, wr⟩ := s
  cases c <;> cases inw <;> cases imo <;> cases ide <;> cases irn <;>
    cases wn <;> cases wm <;> cases wd <;> cases wr <;> simp [classifyStatus]

/-- The conflict flag accumulated by the status fold is the disjunction of
the entries' `conflicted` flags. -/
theorem buildFileStatuses_foldl_snd (entries : List StatusEntry)
    (acc : List (GitPath × FileStatus) × Bool) :
    (entries.foldl
      (fun acc e =>
        ((e.path.getD [], classifyStatus e.status) :: acc.1,
         acc.2 || e.status.conflicted)) acc).2
      = (acc.2 || entries.any fun e => e.status.conflicted) := by
  induction entries generalizing acc with
  | nil => simp
  | cons e rest ih => simp [ih, Bool.or_assoc]

/-- Specialisation of `buildFileStatuses_foldl_snd` to the empty
accumulator used by `fetch_status`. -/
theorem buildFileStatuses_snd (entries : List StatusEntry) :
    (buildFileStatuses entries).2 = entries.any fun e => e.status.conflicted := by
  have h := buildFileStatuses_foldl_snd entries ([], false)
  simpa [buildFileStatuses] using h

/-- C1: every status entry of a single status computation is classified by
the strict precedence conflicted > staged > untracked > wt-modified >
wt-deleted > renamed > unknown (the source cascade agrees with the spec
cascade on every flag combination, and the returned map is the fold of
that cascade over the entries), and `has_conflicts` holds iff at least one
entry was classified `Conflicted`. -/
theorem fetch_status_classifies_with_precedence
    (repo : GitRepository) (entries : List StatusEntry) (info : GitInfo)
    (s : GitStatusFlags)
    (hs : repo.statuses = Except.ok entries)
    (hf : fetch_status (some repo) = Except.ok info) :
    classifyStatus s = specClassifyStatus s ∧
    info.file_statuses = (buildFileStatuses entries).1 ∧
    (info.has_conflicts = true ↔
      ∃ e ∈ entries, classifyStatus e.status = FileStatus.Conflicted) := by
  have hmap : info.file_statuses = (buildFileStatuses entries).1 ∧
      info.has_conflicts = (buildFileStatuses entries).2 := by
    cases hh : repo.head with
    | error e => simp [fetch_status, hh] at hf
    | ok head =>
      cases hab : get_ahead_behind repo with
      | error e => simp [fetch_status, hh, hab] at hf
      | ok ab =>
        obtain ⟨ahead, behind⟩ := ab
        simp only [fetch_status, hh, hab, hs, Except.ok.injEq] at hf
        subst hf
        exact ⟨rfl, rfl⟩
  refine ⟨classifyStatus_eq_specClassifyStatus s, hmap.1, ?_⟩
  rw [hmap.2, buildFileStatuses_snd]
  simp [List.any_eq_true, classifyStatus_conflicted_iff]

/-- Concrete repository used to witness C1: one conflicted entry. -/
def witRepoC1 : GitRepository :=
  { head := Except.ok { is_branch := true, shorthand := some "main", target := some 1 }
    find_reference := fun _ => Except.error "not found"
    statuses := Except.ok
      [{ path := some ["a.txt"]
         status :=
           { conflicted := true, index_new := false, index_modified := false
             index_deleted := false, index_renamed := false, wt_new := false
             wt_modified := false, wt_deleted := false, wt_renamed := false } }]
    graph_ahead_behind := fun _ _ => Except.error "unused" }

/-- The entry list of `witRepoC1`. -/
def witEntriesC1 : List StatusEntry :=
  [{ path := some ["a.txt"]
     status :=
       { conflicted := true, index_new := false, index_modified := false
         index_deleted := false, index_renamed := false, wt_new := false
         wt_modified := false, wt_deleted := false, wt_renamed := false } }]

/-- The `GitInfo` that `fetch_status` returns for `witRepoC1`. -/
def witInfoC1 : GitInfo :=
  { branch := "main", ahead := 0, behind := 0, has_conflicts := true
    file_statuses := [(["a.txt"], FileStatus.Conflicted)] }

/-- Witness for C1 at a concrete repository with one conflicted entry. -/
theorem fetch_status_classifies_with_precedence_witness :
    classifyStatus
        { conflicted := true, index_new := false, index_modified := false
          index_deleted := false, index_renamed := false, wt_new := false
          wt_modified := false, wt_deleted := false, wt_renamed := false }
      = specClassifyStatus
        { conflicted := true, index_new := false, index_modified := false
          index_deleted := false, index_renamed := false, wt_new := false
          wt_modified := false, wt_deleted := false, wt_renamed := false } ∧
    witInfoC1.file_statuses = (buildFileStatuses witEntriesC1).1 ∧
    (witInfoC1.has_conflicts = true ↔
      ∃ e ∈ witEntriesC1, classifyStatus e.status = FileStatus.Conflicted) :=
  fetch_status_classifies_with_precedence witRepoC1 witEntriesC1 witInfoC1
    { conflicted := true, index_new := false, index_modified := false
      index_deleted := false, index_renamed := false, wt_new := false
      wt_modified := false, wt_deleted := false, wt_renamed := false }
    rfl rfl

/-- C4: if a `get_status` call succeeds and a second call happens while
the resulting cache is still fresh (`now2 - last_update < ttl`) with no
intervening invalidate, the second call returns the value-equal snapshot,
leaves the cache unchanged, and performs no fetch; across the two calls
`fetch_status` ran at most once. -/
theorem get_status_fresh_snapshot
    (fetch : Except String GitInfo) (now1 now2 : Int) (c c1 : CachedGitInfo)
    (info1 : GitInfo) (k1 : Nat)
    (h1 : get_status fetch now1 c = (Except.ok info1, c1, k1))
    (hfresh : now2 - c1.last_update < c1.cache_duration) :
    get_status fetch now2 c1 = (Except.ok info1, c1, 0) ∧ k1 ≤ 1 := by
  cases hc : c.info with
  | some info0 =>
    by_cases hif : now1 - c.last_update < c.cache_duration
    · simp only [get_status, hc, if_pos hif, Prod.mk.injEq,
        Except.ok.injEq] at h1
      obtain ⟨h1a, h1b, h1c⟩ := h1
      subst h1a; subst h1b; subst h1c
      refine ⟨?_, Nat.zero_le 1⟩
      simp [get_status, hc, hfresh]
    · cases hfe : fetch with
      | error e => simp [get_status, hc, if_neg hif, hfe] at h1
      | ok new_info =>
        simp only [get_status, hc, if_neg hif, hfe, Prod.mk.injEq,
          Except.ok.injEq] at h1
        obtain ⟨h1a, h1b, h1c⟩ := h1
        subst h1a; subst h1b; subst h1c
        refine ⟨?_, le_refl 1⟩
        simp only at hfresh
        simp [get_status, hfresh]
  | none =>
    cases hfe : fetch with
    | error e => simp [get_status, hc, hfe] at h1
    | ok new_info =>
      simp only [get_status, hc, hfe, Prod.mk.injEq, Except.ok.injEq] at h1
      obtain ⟨h1a, h1b, h1c⟩ := h1
      subst h1a; subst h1b; subst h1c
      refine ⟨?_, le_refl 1⟩
      simp only at hfresh
      simp [get_status, hfresh]

/-- A concrete snapshot used by the cache witnesses. -/
def witInfoCache : GitInfo :=
  { branch := "main", ahead := 0, behind := 0, has_conflicts := false
    file_statuses := [] }

/-- Witness for C4: a miss at t = 0 followed by a hit at t = 100 on the
default cache (ttl 500 ms). -/
theorem get_status_fresh_snapshot_witness :
    get_status (Except.ok witInfoCache) 100
        { info := some witInfoCache, last_update := 0, cache_duration := 500 }
      = (Except.ok witInfoCache,
         { info := some witInfoCache, last_update := 0, cache_duration := 500 },
         0) ∧ (1 : Nat) ≤ 1 :=
  get_status_fresh_snapshot (Except.ok witInfoCache) 0 100 (cache_new 0)
    { info := some witInfoCache, last_update := 0, cache_duration := 500 }
    witInfoCache 1 rfl (by decide)

/-- C5: an `invalidate_cache` followed by `get_status` always invokes
`fetch_status` (one invocation), independently of how recently the cache
was updated, because the rewound `last_update` puts the elapsed time
(≥ 10 s) beyond any ttl of at most 10 s (the constructor's ttl is 500 ms). -/
theorem invalidate_then_get_status_refetches
    (fetch : Except String GitInfo) (now now' : Int) (c : CachedGitInfo)
    (hmono : now ≤ now') (httl : c.cache_duration ≤ 10000) :
    (get_status fetch now' (invalidate_cache now c)).2.2 = 1 := by
  have hstale : ¬ (now' - (invalidate_cache now c).last_update
      < (invalidate_cache now c).cache_duration) := by
    simp only [invalidate_cache]
    omega
  cases hc : c.info with
  | some info0 =>
    have hc' : (invalidate_cache now c).info = some info0 := hc
    cases fetch with
    | error e => simp [get_status, hc', if_neg hstale]
    | ok new_info => simp [get_status, hc', if_neg hstale]
  | none =>
    have hc' : (invalidate_cache now c).info = none := hc
    cases fetch with
    | error e => simp [get_status, hc']
    | ok new_info => simp [get_status, hc']

/-- Witness for C5: invalidation at t = 0 of a just-updated default cache,
read back at t = 0. -/
theorem invalidate_then_get_status_refetches_witness :
    (get_status (Except.ok witInfoCache) 0
      (invalidate_cache 0
        { info := some witInfoCache, last_update := 0,
          cache_duration := 500 })).2.2 = 1 :=
  invalidate_then_get_status_refetches (Except.ok witInfoCache) 0 0
    { info := some witInfoCache, last_update := 0, cache_duration := 500 }
    (le_refl 0) (by decide)

/-- C8: on the cache produced by `GitMonitor::new` the first `get_status`
always invokes `fetch_status` (the stored snapshot is absent), and the
freshness test would fail as well at any time at or after construction. -/
theorem first_get_status_fetches
    (fetch : Except String GitInfo) (now now' : Int)
    (hmono : now ≤ now') :
    (get_status fetch now' (cache_new now)).2.2 = 1 ∧
    ¬ (now' - (cache_new now).last_update < (cache_new now).cache_duration) := by
  constructor
  · cases fetch with
    | error e => simp [get_status, cache_new]
    | ok new_info => simp [get_status, cache_new]
  · simp only [cache_new]
    omega

/-- Witness for C8: construction and first read both at t = 0. -/
theorem first_get_status_fetches_witness :
    (get_status (Except.ok witInfoCache) 0 (cache_new 0)).2.2 = 1 ∧
    ¬ ((0 : Int) - (cache_new 0).last_update < (cache_new 0).cache_duration) :=
  first_get_status_fetches (Except.ok witInfoCache) 0 0 (le_refl 0)

/-- C10: `invalidate_cache` touches only `last_update`: the stored
snapshot and the ttl are unchanged. -/
theorem invalidate_cache_frame (now : Int) (c : CachedGitInfo) :
    (invalidate_cache now c).info = c.info ∧
    (invalidate_cache now c).cache_duration = c.cache_duration :=
  ⟨rfl, rfl⟩

/-- Stripping a prefix off its own append recovers the suffix. -/
theorem stripPrefixList_append (root rel : GitPath) :
    stripPrefixList root (root ++ rel) = some rel := by
  induction root with
  | nil => rfl
  | cons b bs ih => simp [stripPrefixList, ih]

/-- If every key of the map fails to strip against `root` while the
probed path strips successfully, the lookup misses. -/
theorem lookup_status_none_of_strip
    (fs : List (GitPath × FileStatus)) (root p rel : GitPath)
    (hk : ∀ kv ∈ fs, stripPrefixList root kv.1 = none)
    (hp : stripPrefixList root p = some rel) :
    lookup_status fs p = none := by
  induction fs with
  | nil => rfl
  | cons kv rest ih =>
    obtain ⟨k, v⟩ := kv
    have hkv := hk (k, v) (List.mem_cons_self (k, v) rest)
    simp only [lookup_status]
    by_cases heq : k = p
    · rw [heq] at hkv
      rw [hkv] at hp
      exact absurd hp (by simp)
    · rw [if_neg heq]
      exact ih fun kv hm => hk kv (List.mem_cons_of_mem _ hm)

/-- C6: querying a snapshot with an absolute path (`root ++ rel`) and with
its repo-root-relative form `rel` yields the same optional `FileStatus`,
provided the map's keys are repo-relative (none strips against `root`)
and `rel` itself does not strip against `root`. -/
theorem resolve_file_status_abs_rel
    (info : GitInfo) (root rel : GitPath)
    (hk : ∀ kv ∈ info.file_statuses, stripPrefixList root kv.1 = none)
    (hr : stripPrefixList root rel = none) :
    resolve_file_status (some root) info (root ++ rel) =
      resolve_file_status (some root) info rel := by
  have h1 : lookup_status info.file_statuses (root ++ rel) = none :=
    lookup_status_none_of_strip info.file_statuses root (root ++ rel) rel hk
      (stripPrefixList_append root rel)
  simp only [resolve_file_status, h1, stripPrefixList_append root rel, hr]
  cases hl : lookup_status info.file_statuses rel <;> simp [hl]

/-- Snapshot with one repo-relative key, used to witness C6. -/
def witInfoC6 : GitInfo :=
  { branch := "main", ahead := 0, behind := 0, has_conflicts := false
    file_statuses := [(["a.txt"], FileStatus.Modified)] }

/-- Witness for C6 at root `/repo` and file `a.txt`. -/
theorem resolve_file_status_abs_rel_witness :
    resolve_file_status (some ["/", "repo"]) witInfoC6
        (["/", "repo"] ++ ["a.txt"]) =
      resolve_file_status (some ["/", "repo"]) witInfoC6 ["a.txt"] :=
  resolve_file_status_abs_rel witInfoC6 ["/", "repo"] ["a.txt"]
    (by decide) (by decide)

/-! ## Event translation claims -/

/-- Matcher that ignores exactly the relative path `a.tmp`. -/
def witMatcherC2 : IgnoreMatcher := fun rel _ => decide (rel = ["a.tmp"])

/-- Filesystem oracle answering `is_dir = false` everywhere. -/
def witIsDir : GitPath → Bool := fun _ => false

/-- Raw create event referencing the ignored `a.tmp` and the non-ignored
`b.txt`. -/
def witEventC2 : RawEvent :=
  { kind := RawEventKind.Create, paths := [["a.tmp"], ["b.txt"]] }

/-- C2 counterexample: an event referencing a non-ignored path (`b.txt`)
alongside an ignored one (`a.tmp`) is dropped by `convert_event`, so the
filter does not require all referenced paths to be ignored. -/
theorem convert_event_drops_on_any_ignored :
    convert_event (some witMatcherC2) witIsDir [] witEventC2 = none ∧
    path_ignored witMatcherC2 witIsDir [] ["b.txt"] = false ∧
    ["b.txt"] ∈ witEventC2.paths := by decide

/-- C2 (amended): the translator drops a raw event through the ignore
filter iff at least one referenced path (taken relative to the watch
root) is matched by the ignore rules; in particular an event none of
whose referenced paths is ignored passes the filter. -/
theorem convert_event_ignore_drop
    (gi : IgnoreMatcher) (isDir : GitPath → Bool) (base : GitPath)
    (e : RawEvent) :
    (event_dropped (some gi) isDir base e = true ↔
      ∃ p ∈ e.paths, path_ignored gi isDir base p = true) ∧
    (event_dropped (some gi) isDir base e = true →
      convert_event (some gi) isDir base e = none) := by
  constructor
  · simp [event_dropped, List.any_eq_true]
  · intro h
    simp [convert_event, h]

/-- Witness for C2 (amended) at the concrete matcher and event above. -/
theorem convert_event_ignore_drop_witness :
    (event_dropped (some witMatcherC2) witIsDir [] witEventC2 = true ↔
      ∃ p ∈ witEventC2.paths,
        path_ignored witMatcherC2 witIsDir [] p = true) ∧
    (event_dropped (some witMatcherC2) witIsDir [] witEventC2 = true →
      convert_event (some witMatcherC2) witIsDir [] witEventC2 = none) :=
  convert_event_ignore_drop witMatcherC2 witIsDir [] witEventC2

/-- C9: a raw event that passes the ignore filter translates by kind —
Create ↦ Created, Modify/Any ↦ Modified, Remove ↦ Deleted — carrying
exactly the first path of the raw path list (the rest is discarded); an
empty path list, or any other kind, yields no event. -/
theorem convert_event_kind_mapping
    (g : Option IgnoreMatcher) (isDir : GitPath → Bool) (base : GitPath)
    (e : RawEvent)
    (hnd : event_dropped g isDir base e = false) :
    convert_event g isDir base e =
      (match e.kind, e.paths with
       | RawEventKind.Create, p :: _ => some (WatchEvent.Created p)
       | RawEventKind.Modify, p :: _ => some (WatchEvent.Modified p)
       | RawEventKind.Remove, p :: _ => some (WatchEvent.Deleted p)
       | RawEventKind.Any, p :: _ => some (WatchEvent.Modified p)
       | _, [] => none
       | RawEventKind.Other, _ => none) := by
  obtain ⟨k, ps⟩ := e
  simp only [convert_event, hnd, Bool.false_eq_true, if_false]
  cases k <;> cases ps <;> rfl

/-- Raw create event with two paths, used to witness C9. -/
def witEventC9 : RawEvent :=
  { kind := RawEventKind.Create, paths := [["x.txt"], ["y.txt"]] }

/-- Witness for C9: with no matcher installed, the two-path create event
translates to `Created` of the first path only. -/
theorem convert_event_kind_mapping_witness :
    convert_event none witIsDir [] witEventC9 =
      some (WatchEvent.Created ["x.txt"]) :=
  convert_event_kind_mapping none witIsDir [] witEventC9 rfl

/-! ## Correlator loop claims -/

/-- A git-enabled monitor with a freshly updated default cache, used by
the C3 counterexample and witness. -/
def witMonitorC3 : MonitorState :=
  { repo_root := some ["/", "repo"]
    fetch := Except.ok witInfoCache
    cache := { info := some witInfoCache, last_update := 0,
               cache_duration := 500 } }

/-- C3 counterexample: with git enabled, receiving an `Error` event (which
carries no path) performs no cache invalidation — the monitor state is
returned untouched — although invalidation would have rewound
`last_update`. -/
theorem process_event_error_no_invalidate :
    process_event (some witMonitorC3) 0 (WatchEvent.Error "watch error")
      = (none, some witMonitorC3, false) ∧
    witMonitorC3.cache.last_update ≠
      (invalidate_cache 0 witMonitorC3.cache).last_update :=
  ⟨rfl, by decide⟩

/-- C3 (amended): with git integration enabled, an event that carries a
path first invalidates the cache and only then resolves the path's status,
so the status handed to the output collaborator comes from a fresh
`fetch_status` result (never from the pre-existing snapshot); an `Error`
event (no path) performs no invalidation and yields no status. -/
theorem process_event_cache_discipline
    (m : MonitorState) (now : Int) (event : WatchEvent)
    (httl : m.cache.cache_duration ≤ 10000) :
    (match WatchEvent.path event with
     | some p =>
       (process_event (some m) now event).2.2 = true ∧
       (process_event (some m) now event).1 =
         (match m.fetch with
          | Except.error _ => none
          | Except.ok info => resolve_file_status m.repo_root info p)
     | none => process_event (some m) now event = (none, some m, false)) := by
  have hstale2 : ¬ ((10000 : Int) < m.cache.cache_duration) := by omega
  cases hp : WatchEvent.path event with
  | none => simp [process_event, hp]
  | some p =>
    cases hc : m.cache.info with
    | some info0 =>
      cases hfe : m.fetch with
      | error e =>
        simp [process_event, hp, get_file_status, get_status,
          invalidate_cache, hc, hfe, hstale2]
      | ok info =>
        simp [process_event, hp, get_file_status, get_status,
          invalidate_cache, hc, hfe, hstale2]
    | none =>
      cases hfe : m.fetch with
      | error e =>
        simp [process_event, hp, get_file_status, get_status,
          invalidate_cache, hc, hfe]
      | ok info =>
        simp [process_event, hp, get_file_status, get_status,
          invalidate_cache, hc, hfe]

/-- Witness for C3 (amended): a `Modified` event on a git-enabled monitor
invalidates and resolves against the fresh snapshot. -/
theorem process_event_cache_discipline_witness :
    (process_event (some witMonitorC3) 0
        (WatchEvent.Modified ["/", "repo", "a.txt"])).2.2 = true ∧
    (process_event (some witMonitorC3) 0
        (WatchEvent.Modified ["/", "repo", "a.txt"])).1 =
      resolve_file_status (some ["/", "repo"]) witInfoCache
        ["/", "repo", "a.txt"] :=
  process_event_cache_discipline witMonitorC3 0
    (WatchEvent.Modified ["/", "repo", "a.txt"]) (by decide)

/-- C7: in a successful status computation, `branch` is HEAD's shorthand
name when HEAD points at a branch and the literal "detached" otherwise;
`(ahead, behind)` is `(0, 0)` when HEAD is not on a branch or when no
`refs/remotes/origin/<branch>` reference exists, and otherwise equals the
commit-graph distance `graph_ahead_behind` reports between local HEAD and
that upstream reference. -/
theorem fetch_status_branch_ahead_behind
    (repo : GitRepository) (head : GitReference) (info : GitInfo)
    (name : String) (lo : Nat) (ures : Except String GitReference)
    (hh : repo.head = Except.ok head)
    (hsh : head.shorthand = some name)
    (htg : head.target = some lo)
    (hu : repo.find_reference ("refs/remotes/origin/" ++ name) = ures)
    (hf : fetch_status (some repo) = Except.ok info) :
    (head.is_branch = false →
      info.branch = "detached" ∧ info.ahead = 0 ∧ info.behind = 0) ∧
    (head.is_branch = true →
      info.branch = name ∧
      (match ures with
       | Except.error _ => info.ahead = 0 ∧ info.behind = 0
       | Except.ok upstream =>
         (match upstream.target with
          | none => True
          | some uo =>
            (match repo.graph_ahead_behind lo uo with
             | Except.error _ => True
             | Except.ok ab =>
               info.ahead = ab.1 ∧ info.behind = ab.2)))) := by
  cases hb : head.is_branch with
  | false =>
    have hab : get_ahead_behind repo = Except.ok (0, 0) := by
      simp [get_ahead_behind, hh, hb]
    cases hst : repo.statuses with
    | error e => simp [fetch_status, hh, hb, hab, hst] at hf
    | ok entries =>
      simp only [fetch_status, hh, hb, hab, hst, Bool.false_eq_true,
        if_false, Except.ok.injEq] at hf
      subst hf
      exact ⟨fun _ => ⟨rfl, rfl, rfl⟩, fun hcontra => Bool.noConfusion hcontra⟩
  | true =>
    cases ures with
    | error eu =>
      have hab : get_ahead_behind repo = Except.ok (0, 0) := by
        simp [get_ahead_behind, hh, hb, htg, hsh, hu]
      cases hst : repo.statuses with
      | error e => simp [fetch_status, hh, hb, hab, hst] at hf
      | ok entries =>
        simp only [fetch_status, hh, hb, hsh, hab, hst, if_true,
          Option.getD_some, Except.ok.injEq] at hf
        subst hf
        refine ⟨fun hcontra => Bool.noConfusion hcontra, fun _ => ⟨rfl, ?_⟩⟩
        exact ⟨rfl, rfl⟩
    | ok upstream =>
      cases hut : upstream.target with
      | none =>
        have hab : get_ahead_behind repo
            = Except.error "Failed to get upstream target" := by
          simp [get_ahead_behind, hh, hb, htg, hsh, hu, hut]
        simp [fetch_status, hh, hab] at hf
      | some uo =>
        cases hgr : repo.graph_ahead_behind lo uo with
        | error eg =>
          have hab : get_ahead_behind repo = Except.error eg := by
            simp [get_ahead_behind, hh, hb, htg, hsh, hu, hut, hgr]
          simp [fetch_status, hh, hab] at hf
        | ok ab =>
          obtain ⟨a, b⟩ := ab
          have hab : get_ahead_behind repo = Except.ok (a, b) := by
            simp [get_ahead_behind, hh, hb, htg, hsh, hu, hut, hgr]
          cases hst : repo.statuses with
          | error e => simp [fetch_status, hh, hb, hab, hst] at hf
          | ok entries =>
            simp only [fetch_status, hh, hb, hsh, hab, hst, if_true,
              Option.getD_some, Except.ok.injEq] at hf
            subst hf
            refine ⟨fun hcontra => Bool.noConfusion hcontra, fun _ => ⟨rfl, ?_⟩⟩
            simp only [hut, hgr]
            exact ⟨trivial, trivial⟩

/-- HEAD reference used to witness C7: on branch `main`, target 5. -/
def witHeadC7 : GitReference :=
  { is_branch := true, shorthand := some "main", target := some 5 }

/-- Upstream reference used to witness C7: target 9. -/
def witUpstreamC7 : GitReference :=
  { is_branch := false, shorthand := none, target := some 9 }

/-- Repository used to witness C7: upstream found, graph distance (2, 3),
no status entries. -/
def witRepoC7 : GitRepository :=
  { head := Except.ok witHeadC7
    find_reference := fun _ => Except.ok witUpstreamC7
    statuses := Except.ok []
    graph_ahead_behind := fun _ _ => Except.ok (2, 3) }

/-- The `GitInfo` that `fetch_status` returns for `witRepoC7`. -/
def witInfoC7 : GitInfo :=
  { branch := "main", ahead := 2, behind := 3, has_conflicts := false
    file_statuses := [] }

/-- Witness for C7 at the concrete repository `witRepoC7`. -/
theorem fetch_status_branch_ahead_behind_witness :
    (witHeadC7.is_branch = false →
      witInfoC7.branch = "detached" ∧ witInfoC7.ahead = 0 ∧
        witInfoC7.behind = 0) ∧
    (witHeadC7.is_branch = true →
      witInfoC7.branch = "main" ∧
        (witInfoC7.ahead = 2 ∧ witInfoC7.behind = 3)) :=
  fetch_status_branch_ahead_behind witRepoC7 witHeadC7 witInfoC7 "main" 5
    (Except.ok witUpstreamC7) rfl rfl rfl rfl rfl
